import Mathlib

/-!
Verification of the transaction issuance / confirmation / audit pipeline of
`src/rust/src/main.rs` (a Bitcoin Core regtest capstone tool).

Modelling conventions, all taken from the source:
* Monetary amounts are `bitcoincore_rpc::bitcoin::Amount` values, i.e. unsigned
  64-bit satoshi counts; they are embedded as `Nat` (1 BTC = 100000000 sats).
  `Amount::checked_sub(..).unwrap_or(Amount::ZERO)` is embedded as `checkedSub`
  followed by `Option.getD 0`.
* Scripts are compared by the code via equality of their `format!("{:?}", ..)`
  strings, so an output's script is embedded directly as that formatted
  `String`, and script comparison is `String` equality — exactly the
  comparison the code performs.
* The node is a pure lookup environment: `get_raw_transaction_info` and
  `get_block_info` become functions returning `Option` (with `none` for an
  RPC failure).
* `balance.to_btc() > 0.0` on an `Amount` holds exactly when the satoshi
  count is positive, so the balance check is embedded on satoshis.
-/

/-- A transaction input's previous-output reference: the `(txid, vout)` pair
`decoded_tx.input[i].previous_output` of main.rs lines 189-190. -/
structure OutPoint where
  txid : String
  vout : Nat
deriving DecidableEq, Repr

/-- A transaction input (only its previous-output reference is used). -/
structure TxIn where
  previous_output : OutPoint
deriving DecidableEq, Repr

/-- A transaction output: its amount in satoshis and the `format!("{:?}", ..)`
rendering of its script, which is the representation the code stores and
compares (main.rs lines 198, 213, 215). -/
structure TxOut where
  script_pubkey : String
  value : Nat
deriving DecidableEq, Repr

/-- The decoded result of `get_raw_transaction_info` as used by main.rs:
inputs, outputs, and the optional confirming block hash (`raw.blockhash`). -/
structure RawTransactionInfo where
  input : List TxIn
  output : List TxOut
  blockhash : Option String
deriving DecidableEq, Repr

/-- The errors the audit portion of `main` can return (each is a distinct
`return Err(..)` / `ok_or(..)?` site of main.rs). -/
inductive AuditError where
  /-- an RPC `get_raw_transaction_info` call failed -/
  | txNotFound
  /-- "Transaction has no inputs" (line 186) -/
  | noInputs
  /-- "Invalid input reference" (line 194) -/
  | invalidReference
  /-- "Transaction not in a block" (line 233) -/
  | notInBlock
  /-- the RPC `get_block_info` call failed (line 234) -/
  | blockNotFound
deriving DecidableEq, Repr

/-- The ten fields written to `out.txt` (main.rs lines 259-268), in source
order and with the source's variable names. -/
structure AuditRecord where
  txid : String
  miner_input_address : String
  miner_input_amount : Nat
  trader_output_address : String
  trader_output_amount : Nat
  miner_change_address : String
  miner_change_amount : Nat
  fee : Nat
  block_height : Nat
  block_hash : String
deriving DecidableEq, Repr

/-- The node's query surface used by the audit: transaction lookup by txid and
block-height lookup by block hash. -/
structure Node where
  getRawTransactionInfo : String → Option RawTransactionInfo
  getBlockHeight : String → Option Nat

/-- `Amount::checked_sub` on satoshi counts: `none` on underflow. -/
def checkedSub (a b : Nat) : Option Nat :=
  if b ≤ a then some (a - b) else none

/-- One step of the classification loop of main.rs lines 210-224: an output
whose formatted script equals the trader's formatted script overwrites the
trader (payee) fields, any other output overwrites the miner-change fields. -/
def classifyStep (trader_script : String) (acc : AuditRecord) (output : TxOut) :
    AuditRecord :=
  if output.script_pubkey = trader_script then
    { acc with trader_output_address := output.script_pubkey,
               trader_output_amount := output.value }
  else
    { acc with miner_change_address := output.script_pubkey,
               miner_change_amount := output.value }

/-- The classification loop of main.rs lines 204-224 run over all outputs,
starting from `String::new()` / `Amount::ZERO` in the four classification
fields (the other record fields are filled in by `audit`). -/
def classifyOutputs (trader_script : String) (outputs : List TxOut)
    (init : AuditRecord) : AuditRecord :=
  outputs.foldl (classifyStep trader_script) init

/-- The audit portion of `main` (main.rs lines 181-268), as a function of the
node environment, the trader's formatted script, and the audited txid.
The error sites appear in the source's order: fetch the transaction, reject
empty inputs, resolve the first input's previous output (fetching that prior
transaction and bounds-checking the index), classify outputs and compute the
fee, then require a confirming block hash and resolve its height. -/
def audit (node : Node) (trader_script : String) (txid : String) :
    Except AuditError AuditRecord :=
  match node.getRawTransactionInfo txid with
  | none => .error .txNotFound
  | some raw =>
    match raw.input with
    | [] => .error .noInputs
    | firstInput :: _ =>
      let input_txid := firstInput.previous_output.txid
      let input_vout := firstInput.previous_output.vout
      match node.getRawTransactionInfo input_txid with
      | none => .error .txNotFound
      | some prev_tx =>
        if prev_tx.output.length ≤ input_vout then .error .invalidReference
        else
          let prev_output := prev_tx.output.getD input_vout ⟨"", 0⟩
          let miner_input_address := prev_output.script_pubkey
          let miner_input_amount := prev_output.value
          let classified := classifyOutputs trader_script raw.output
            { txid := txid
              miner_input_address := miner_input_address
              miner_input_amount := miner_input_amount
              trader_output_address := ""
              trader_output_amount := 0
              miner_change_address := ""
              miner_change_amount := 0
              fee := 0
              block_height := 0
              block_hash := "" }
          let total_output := (raw.output.map (fun o => o.value)).sum
          let fee := (checkedSub miner_input_amount total_output).getD 0
          match raw.blockhash with
          | none => .error .notInBlock
          | some tx_block_hash =>
            match node.getBlockHeight tx_block_hash with
            | none => .error .blockNotFound
            | some block_height =>
              .ok { classified with
                      fee := fee
                      block_height := block_height
                      block_hash := tx_block_hash }

/-- Result of the coinbase-maturation loop: either a spendable balance was
observed after `blocksMined` blocks, or the safety limit was exhausted with
`blocksMined` blocks mined. -/
inductive MatureResult where
  | success (blocksMined : Nat)
  | timeout (blocksMined : Nat)
deriving DecidableEq, Repr

/-- The body of the maturation loop of main.rs lines 102-121, with
`remaining = max_blocks - blocks_mined` as structural fuel: when no budget
remains the loop returns the timeout error, otherwise it mines one block,
increments the counter, observes the balance (in satoshis, indexed by the
number of blocks mined so far) and succeeds on a strictly positive balance. -/
def matureAux (balances : Nat → Nat) (blocks_mined : Nat) :
    Nat → MatureResult
  | 0 => .timeout blocks_mined
  | remaining + 1 =>
    let mined := blocks_mined + 1
    if 0 < balances mined then .success mined
    else matureAux balances mined remaining

/-- The maturation loop of main.rs lines 98-121: `blocks_mined` starts at 0
and the guard `blocks_mined >= max_blocks` is the fuel hitting 0. -/
def mature (balances : Nat → Nat) (max_blocks : Nat) : MatureResult :=
  matureAux balances 0 max_blocks

/-- `ensure_wallet_exists` of main.rs lines 59-68, over the node's loaded
wallet list: if the name is absent a `create_wallet` call is issued (the node's
wallet list then additionally contains the new name), otherwise nothing is
created. Returns the resulting wallet list and whether a creation call was
issued. -/
def ensure_wallet_exists (loaded_wallets : List String) (wallet_name : String) :
    List String × Bool :=
  if loaded_wallets.contains wallet_name then (loaded_wallets, false)
  else (loaded_wallets ++ [wallet_name], true)

/-- The fixed-point rendering with exactly 8 fractional digits used by the
terminal output of main.rs line 242 (`format!("{:.8}", amount.to_btc())`):
the integer BTC part, a dot, and exactly eight fractional digits. -/
def fmt8 (sats : Nat) : String :=
  let frac := toString (sats % 100000000)
  toString (sats / 100000000) ++ "." ++
    String.mk (List.replicate (8 - frac.length) '0') ++ frac

/-- Modelled from main.rs lines 261-266: `writeln!(file, "{}", amount.to_btc())`
renders the `f64` BTC value with Rust's default `Display` (shortest
round-tripping form). For an amount that is a whole number of BTC the `f64`
is exact and `Display` prints just the integer digits (Rust prints `20.0_f64`
as "20"); this embeds that whole-BTC case, the one exercised by the reference
20.0 BTC payment. -/
def display_to_btc_whole (sats : Nat) : String :=
  toString (sats / 100000000)

/-! ## Concrete fixtures used by witnesses and counterexamples -/

/-- Balance trace of the reference deployment: the wallet balance (in sats)
becomes positive once 101 blocks have been mined (coinbase maturity 100). -/
def bal0 : Nat → Nat := fun blocks => if 101 ≤ blocks then 5000000000 else 0

/-- The prior (funding) transaction: one 50 BTC output to the miner. -/
def prevA : RawTransactionInfo :=
  { input := [⟨⟨"coinbaseTx", 0⟩⟩]
    output := [⟨"minerScript", 5000000000⟩]
    blockhash := some "blockA" }

/-- A confirmed two-output payment: one trader output, one change output. -/
def rawPay2 : RawTransactionInfo :=
  { input := [⟨⟨"prior", 0⟩⟩]
    output := [⟨"traderScript", 2000000000⟩, ⟨"minerScript", 2999000000⟩]
    blockhash := some "blockB" }

/-- Same as `rawPay2` but with a second (unused) input appended. -/
def rawPay2b : RawTransactionInfo :=
  { input := [⟨⟨"prior", 0⟩⟩, ⟨⟨"someOtherTx", 7⟩⟩]
    output := [⟨"traderScript", 2000000000⟩, ⟨"minerScript", 2999000000⟩]
    blockhash := some "blockB" }

/-- A confirmed three-output payment: one trader output and two distinct
non-trader outputs. -/
def rawPay3 : RawTransactionInfo :=
  { input := [⟨⟨"prior", 0⟩⟩]
    output := [⟨"traderScript", 2000000000⟩, ⟨"aScript", 1000000000⟩,
               ⟨"bScript", 1900000000⟩]
    blockhash := some "blockB" }

/-- A confirmed payment none of whose outputs matches the trader script. -/
def rawPayNoMatch : RawTransactionInfo :=
  { input := [⟨⟨"prior", 0⟩⟩]
    output := [⟨"aScript", 1000000000⟩]
    blockhash := some "blockB" }

/-- A confirmed payment with two trader-matching outputs. -/
def rawPayMulti : RawTransactionInfo :=
  { input := [⟨⟨"prior", 0⟩⟩]
    output := [⟨"traderScript", 1000000000⟩, ⟨"minerScript", 500000000⟩,
               ⟨"traderScript", 700000000⟩]
    blockhash := some "blockB" }

/-- An unconfirmed (no block hash) payment with a resolvable first input. -/
def rawUnconfirmed : RawTransactionInfo :=
  { input := [⟨⟨"prior", 0⟩⟩]
    output := [⟨"traderScript", 2000000000⟩, ⟨"minerScript", 2999000000⟩]
    blockhash := none }

/-- An unconfirmed transaction with no inputs at all. -/
def rawNoInput : RawTransactionInfo :=
  { input := []
    output := [⟨"traderScript", 2000000000⟩]
    blockhash := none }

/-- A confirmed transaction whose first input references output index 5 of a
one-output prior transaction (out of range). -/
def rawBadRef : RawTransactionInfo :=
  { input := [⟨⟨"prior", 5⟩⟩]
    output := [⟨"traderScript", 2000000000⟩]
    blockhash := some "blockB" }

/-- A node holding all the fixture transactions and the confirming block. -/
def testNode : Node :=
  { getRawTransactionInfo := fun t =>
      if t = "pay2" then some rawPay2
      else if t = "pay3" then some rawPay3
      else if t = "payNoMatch" then some rawPayNoMatch
      else if t = "payMulti" then some rawPayMulti
      else if t = "payUnconfirmed" then some rawUnconfirmed
      else if t = "payNoInput" then some rawNoInput
      else if t = "payBadRef" then some rawBadRef
      else if t = "prior" then some prevA
      else none
    getBlockHeight := fun b => if b = "blockB" then some 123 else none }

/-- `testNode` with the audited transaction "pay2" replaced by `rawPay2b`,
which differs only in inputs after the first. -/
def testNode2 : Node :=
  { getRawTransactionInfo := fun t =>
      if t = "pay2" then some rawPay2b else testNode.getRawTransactionInfo t
    getBlockHeight := testNode.getBlockHeight }

/-- The audit record produced for "pay2". -/
def recPay2 : AuditRecord :=
  { txid := "pay2", miner_input_address := "minerScript"
    miner_input_amount := 5000000000
    trader_output_address := "traderScript", trader_output_amount := 2000000000
    miner_change_address := "minerScript", miner_change_amount := 2999000000
    fee := 1000000, block_height := 123, block_hash := "blockB" }

/-- The audit record produced for "pay3": the middle output's 10 BTC are in
no recorded field, so the recorded amounts do not balance. -/
def recPay3 : AuditRecord :=
  { txid := "pay3", miner_input_address := "minerScript"
    miner_input_amount := 5000000000
    trader_output_address := "traderScript", trader_output_amount := 2000000000
    miner_change_address := "bScript", miner_change_amount := 1900000000
    fee := 100000000, block_height := 123, block_hash := "blockB" }

/-- The audit record produced for "payNoMatch": trader fields keep their
`String::new()` / `Amount::ZERO` defaults. -/
def recNoMatch : AuditRecord :=
  { txid := "payNoMatch", miner_input_address := "minerScript"
    miner_input_amount := 5000000000
    trader_output_address := "", trader_output_amount := 0
    miner_change_address := "aScript", miner_change_amount := 1000000000
    fee := 4000000000, block_height := 123, block_hash := "blockB" }

/-- The audit record produced for "payMulti": the trader fields hold the last
matching output. -/
def recMulti : AuditRecord :=
  { txid := "payMulti", miner_input_address := "minerScript"
    miner_input_amount := 5000000000
    trader_output_address := "traderScript", trader_output_amount := 700000000
    miner_change_address := "minerScript", miner_change_amount := 500000000
    fee := 2800000000, block_height := 123, block_hash := "blockB" }

/-- An arbitrary record used as a classification starting point. -/
def initFixture : AuditRecord :=
  { txid := "", miner_input_address := "", miner_input_amount := 0
    trader_output_address := "", trader_output_amount := 0
    miner_change_address := "", miner_change_amount := 0
    fee := 0, block_height := 0, block_hash := "" }

/-! ## Helper lemmas about the maturation loop -/

lemma matureAux_success_spec (balances : Nat → Nat) :
    ∀ (fuel blocks_mined n : Nat),
      matureAux balances blocks_mined fuel = MatureResult.success n →
        blocks_mined < n ∧ n ≤ blocks_mined + fuel ∧ 0 < balances n ∧
          ∀ k, blocks_mined < k → k < n → balances k = 0 := by
  intro fuel
  induction fuel with
  | zero =>
    intro b n h
    simp [matureAux] at h
  | succ f ih =>
    intro b n h
    by_cases hb : 0 < balances (b + 1)
    · simp [matureAux, hb] at h
      subst h
      exact ⟨by omega, by omega, hb, by intro k hk1 hk2; omega⟩
    · simp [matureAux, hb] at h
      obtain ⟨h1, h2, h3, h4⟩ := ih (b + 1) n h
      refine ⟨by omega, by omega, h3, ?_⟩
      intro k hk1 hk2
      by_cases hk : k = b + 1
      · subst hk; omega
      · exact h4 k (by omega) hk2

lemma matureAux_timeout_spec (balances : Nat → Nat) :
    ∀ (fuel blocks_mined m : Nat),
      matureAux balances blocks_mined fuel = MatureResult.timeout m →
        m = blocks_mined + fuel ∧
          ∀ k, blocks_mined < k → k ≤ blocks_mined + fuel → balances k = 0 := by
  intro fuel
  induction fuel with
  | zero =>
    intro b m h
    simp [matureAux] at h
    exact ⟨by omega, by intro k hk1 hk2; omega⟩
  | succ f ih =>
    intro b m h
    by_cases hb : 0 < balances (b + 1)
    · simp [matureAux, hb] at h
    · simp [matureAux, hb] at h
      obtain ⟨h1, h2⟩ := ih (b + 1) m h
      refine ⟨by omega, ?_⟩
      intro k hk1 hk2
      by_cases hk : k = b + 1
      · subst hk; omega
      · exact h2 k (by omega) (by omega)

/-! ## Helper lemmas about output classification -/

/-- The last output, in output order, whose formatted script equals the
trader's script (the output whose fields the "last one wins" loop leaves in
the trader fields), if any. -/
def lastMatch? (trader_script : String) (outputs : List TxOut) : Option TxOut :=
  outputs.reverse.find? (fun o => decide (o.script_pubkey = trader_script))

/-- The last output, in output order, whose formatted script differs from the
trader's script (the output whose fields the loop leaves in the miner-change
fields), if any. -/
def lastNonMatch? (trader_script : String) (outputs : List TxOut) : Option TxOut :=
  outputs.reverse.find? (fun o => !decide (o.script_pubkey = trader_script))

lemma classifyOutputs_append (ts : String) (init : AuditRecord) (l : List TxOut)
    (a : TxOut) :
    classifyOutputs ts (l ++ [a]) init = classifyStep ts (classifyOutputs ts l init) a := by
  simp [classifyOutputs, List.foldl_append]

lemma lastMatch?_append (ts : String) (l : List TxOut) (a : TxOut) :
    lastMatch? ts (l ++ [a]) =
      if a.script_pubkey = ts then some a else lastMatch? ts l := by
  unfold lastMatch?
  rw [List.reverse_append]
  by_cases h : a.script_pubkey = ts <;> simp [h]

lemma lastNonMatch?_append (ts : String) (l : List TxOut) (a : TxOut) :
    lastNonMatch? ts (l ++ [a]) =
      if a.script_pubkey = ts then lastNonMatch? ts l else some a := by
  unfold lastNonMatch?
  rw [List.reverse_append]
  by_cases h : a.script_pubkey = ts <;> simp [h]

/-- Full characterization of the classification loop: starting from any
record, it overwrites the trader fields with the last matching output (if
any), the miner-change fields with the last non-matching output (if any),
and touches nothing else. -/
lemma classifyOutputs_eq (ts : String) (outs : List TxOut) (init : AuditRecord) :
    classifyOutputs ts outs init =
      { init with
          trader_output_address :=
            match lastMatch? ts outs with
            | some o => o.script_pubkey
            | none => init.trader_output_address
          trader_output_amount :=
            match lastMatch? ts outs with
            | some o => o.value
            | none => init.trader_output_amount
          miner_change_address :=
            match lastNonMatch? ts outs with
            | some o => o.script_pubkey
            | none => init.miner_change_address
          miner_change_amount :=
            match lastNonMatch? ts outs with
            | some o => o.value
            | none => init.miner_change_amount } := by
  induction outs using List.reverseRecOn with
  | nil => simp [classifyOutputs, lastMatch?, lastNonMatch?]
  | append_singleton l a ih =>
    rw [classifyOutputs_append, ih, lastMatch?_append, lastNonMatch?_append]
    by_cases h : a.script_pubkey = ts <;> simp [classifyStep, h]

/-! ## Helper lemmas about the audit function -/

lemma audit_eq_of_resolved (node : Node) (ts txid : String)
    (raw prev_tx : RawTransactionInfo) (firstInput : TxIn) (rest : List TxIn)
    (h1 : node.getRawTransactionInfo txid = some raw)
    (h2 : raw.input = firstInput :: rest)
    (h3 : node.getRawTransactionInfo firstInput.previous_output.txid = some prev_tx)
    (h4 : firstInput.previous_output.vout < prev_tx.output.length) :
    audit node ts txid =
      (let prev_output := prev_tx.output.getD firstInput.previous_output.vout ⟨"", 0⟩
       let classified := classifyOutputs ts raw.output
         { txid := txid
           miner_input_address := prev_output.script_pubkey
           miner_input_amount := prev_output.value
           trader_output_address := ""
           trader_output_amount := 0
           miner_change_address := ""
           miner_change_amount := 0
           fee := 0
           block_height := 0
           block_hash := "" }
       let fee := (checkedSub prev_output.value
         ((raw.output.map (fun o => o.value)).sum)).getD 0
       match raw.blockhash with
       | none => Except.error AuditError.notInBlock
       | some bh =>
         match node.getBlockHeight bh with
         | none => Except.error AuditError.blockNotFound
         | some hgt =>
           Except.ok { classified with
                         fee := fee
                         block_height := hgt
                         block_hash := bh }) := by
  unfold audit
  rw [h1]
  dsimp only
  rw [h2]
  dsimp only
  rw [h3]
  dsimp only
  rw [if_neg (by omega)]

lemma audit_ok_fields (node : Node) (ts txid : String)
    (raw prev_tx : RawTransactionInfo) (firstInput : TxIn) (rest : List TxIn)
    (bh : String) (hgt : Nat)
    (h1 : node.getRawTransactionInfo txid = some raw)
    (h2 : raw.input = firstInput :: rest)
    (h3 : node.getRawTransactionInfo firstInput.previous_output.txid = some prev_tx)
    (h4 : firstInput.previous_output.vout < prev_tx.output.length)
    (h5 : raw.blockhash = some bh)
    (h6 : node.getBlockHeight bh = some hgt) :
    audit node ts txid =
      Except.ok
        { txid := txid
          miner_input_address :=
            (prev_tx.output.getD firstInput.previous_output.vout ⟨"", 0⟩).script_pubkey
          miner_input_amount :=
            (prev_tx.output.getD firstInput.previous_output.vout ⟨"", 0⟩).value
          trader_output_address :=
            match lastMatch? ts raw.output with
            | some o => o.script_pubkey
            | none => ""
          trader_output_amount :=
            match lastMatch? ts raw.output with
            | some o => o.value
            | none => 0
          miner_change_address :=
            match lastNonMatch? ts raw.output with
            | some o => o.script_pubkey
            | none => ""
          miner_change_amount :=
            match lastNonMatch? ts raw.output with
            | some o => o.value
            | none => 0
          fee := (checkedSub (prev_tx.output.getD firstInput.previous_output.vout ⟨"", 0⟩).value
                   ((raw.output.map (fun o => o.value)).sum)).getD 0
          block_height := hgt
          block_hash := bh } := by
  rw [audit_eq_of_resolved node ts txid raw prev_tx firstInput rest h1 h2 h3 h4]
  dsimp only
  rw [h5]
  dsimp only
  rw [h6]
  rw [classifyOutputs_eq]

lemma audit_notInBlock_of_resolved (node : Node) (ts txid : String)
    (raw prev_tx : RawTransactionInfo) (firstInput : TxIn) (rest : List TxIn)
    (h1 : node.getRawTransactionInfo txid = some raw)
    (h2 : raw.input = firstInput :: rest)
    (h3 : node.getRawTransactionInfo firstInput.previous_output.txid = some prev_tx)
    (h4 : firstInput.previous_output.vout < prev_tx.output.length)
    (h5 : raw.blockhash = none) :
    audit node ts txid = Except.error AuditError.notInBlock := by
  rw [audit_eq_of_resolved node ts txid raw prev_tx firstInput rest h1 h2 h3 h4]
  dsimp only
  rw [h5]

lemma lastMatch?_eq_filter_getLast? (ts : String) (outs : List TxOut) :
    lastMatch? ts outs =
      (outs.filter (fun o => decide (o.script_pubkey = ts))).getLast? := by
  unfold lastMatch?
  rw [List.filter_getLast?]

lemma lastNonMatch?_eq_filter_getLast? (ts : String) (outs : List TxOut) :
    lastNonMatch? ts outs =
      (outs.filter (fun o => !decide (o.script_pubkey = ts))).getLast? := by
  unfold lastNonMatch?
  rw [List.filter_getLast?]

lemma getLast?_value_eq_sum (l : List TxOut) (h : l.length ≤ 1) :
    (match l.getLast? with | some o => o.value | none => 0)
      = (l.map (fun o => o.value)).sum := by
  rcases l with _ | ⟨a, _ | ⟨b, t⟩⟩
  · rfl
  · simp
  · simp at h

lemma sum_value_filter_split (outs : List TxOut) (p : TxOut → Bool) :
    ((outs.filter p).map (fun o => o.value)).sum
      + ((outs.filter (fun o => !p o)).map (fun o => o.value)).sum
      = (outs.map (fun o => o.value)).sum := by
  induction outs with
  | nil => rfl
  | cons a l ih =>
    cases hp : p a <;> simp [List.filter_cons, hp] <;> omega

/-! ## Claim theorems -/

/-- C3: the maturation loop mines exactly one block per iteration (the value
carried by the result counts blocks mined, which equals iterations run) and
terminates within `max_blocks` iterations: on success the count is at most
`max_blocks` and the balance observed at that iteration is strictly positive,
with every earlier observed balance zero (success on the first positive
observation, never success on a non-positive balance); on timeout exactly
`max_blocks` iterations were exhausted and no observed balance was positive. -/
theorem maturation_loop_spec (balances : Nat → Nat) (max_blocks : Nat) :
    (∀ n, mature balances max_blocks = MatureResult.success n →
        0 < n ∧ n ≤ max_blocks ∧ 0 < balances n ∧
          ∀ k, 0 < k → k < n → balances k = 0) ∧
    (∀ m, mature balances max_blocks = MatureResult.timeout m →
        m = max_blocks ∧ ∀ k, 0 < k → k ≤ max_blocks → balances k = 0) := by
  constructor
  · intro n h
    obtain ⟨h1, h2, h3, h4⟩ := matureAux_success_spec balances max_blocks 0 n h
    exact ⟨h1, by omega, h3, h4⟩
  · intro m h
    obtain ⟨h1, h2⟩ := matureAux_timeout_spec balances max_blocks 0 m h
    refine ⟨by omega, ?_⟩
    intro k hk1 hk2
    exact h2 k hk1 (by omega)

/-- Witness for C3 at the reference deployment: with balances that turn
positive once 101 blocks are mined and the ceiling of 150, the loop succeeds
at iteration 101 with a positive observed balance. -/
theorem maturation_loop_spec_witness :
    mature bal0 150 = MatureResult.success 101 ∧ 0 < bal0 101 :=
  ⟨by decide, ((maturation_loop_spec bal0 150).1 101 (by decide)).2.2.1⟩

/-- C8: `ensure_wallet_exists` is idempotent: a second call after a
successful first call leaves the node's wallet list unchanged and issues no
creation call; the first call leaves exactly one wallet of the name when none
existed (never a duplicate), and issues a creation call exactly when the name
was not already known to the node. -/
theorem ensure_wallet_exists_idempotent (loaded_wallets : List String)
    (wallet_name : String) :
    ensure_wallet_exists (ensure_wallet_exists loaded_wallets wallet_name).1 wallet_name
        = ((ensure_wallet_exists loaded_wallets wallet_name).1, false) ∧
    (ensure_wallet_exists loaded_wallets wallet_name).1.count wallet_name
        = max (loaded_wallets.count wallet_name) 1 ∧
    (ensure_wallet_exists loaded_wallets wallet_name).2
        = !loaded_wallets.contains wallet_name := by
  by_cases h : wallet_name ∈ loaded_wallets
  · have hc : 0 < loaded_wallets.count wallet_name := List.count_pos_iff.mpr h
    have hmax : max (loaded_wallets.count wallet_name) 1
        = loaded_wallets.count wallet_name := by omega
    simp [ensure_wallet_exists, h, hmax]
  · have hc : loaded_wallets.count wallet_name = 0 := List.count_eq_zero.mpr h
    simp [ensure_wallet_exists, h, List.count_append, hc]

/-- C4 (code-bug exhibit): main.rs lines 261-266 write the `out.txt` amount
lines with Rust's default `f64` `Display` (`writeln!(file, "{}", x.to_btc())`)
rather than the `{:.8}` rendering used for the terminal (line 242): at the
reference payee amount of 20 BTC the file line is "20", while the
8-fractional-digit rendering the record contract requires is "20.00000000". -/
theorem out_txt_amount_formatting_bug :
    display_to_btc_whole 2000000000 = "20" ∧
    fmt8 2000000000 = "20.00000000" ∧
    display_to_btc_whole 2000000000 ≠ fmt8 2000000000 := by
  refine ⟨by decide, by decide, by decide⟩

/-- C1 counterexample: the confirmed three-output transaction "pay3" is
audited successfully, yet the recorded payee amount plus change amount plus
fee differs from the recorded input amount (the middle output's amount is in
no recorded field). -/
theorem audit_fund_conservation_counterexample :
    audit testNode "traderScript" "pay3" = Except.ok recPay3 ∧
    recPay3.trader_output_amount + recPay3.miner_change_amount + recPay3.fee
      ≠ recPay3.miner_input_amount :=
  ⟨rfl, by decide⟩

/-- C1 (amended): for a confirmed transaction whose audit succeeds, if at
most one output matches the trader script and at most one output does not,
and the resolved first-input amount is at least the total output amount, then
the recorded payee amount plus the recorded change amount plus the recorded
fee equals the recorded input amount exactly (satoshi precision). -/
theorem audit_fund_conservation (node : Node) (ts txid : String)
    (raw prev_tx : RawTransactionInfo) (firstInput : TxIn) (rest : List TxIn)
    (bh : String) (hgt : Nat) (rec : AuditRecord)
    (h1 : node.getRawTransactionInfo txid = some raw)
    (h2 : raw.input = firstInput :: rest)
    (h3 : node.getRawTransactionInfo firstInput.previous_output.txid = some prev_tx)
    (h4 : firstInput.previous_output.vout < prev_tx.output.length)
    (h5 : raw.blockhash = some bh)
    (h6 : node.getBlockHeight bh = some hgt)
    (hok : audit node ts txid = Except.ok rec)
    (hp : (raw.output.filter (fun o => decide (o.script_pubkey = ts))).length ≤ 1)
    (hc : (raw.output.filter (fun o => !decide (o.script_pubkey = ts))).length ≤ 1)
    (hle : (raw.output.map (fun o => o.value)).sum
             ≤ (prev_tx.output.getD firstInput.previous_output.vout ⟨"", 0⟩).value) :
    rec.trader_output_amount + rec.miner_change_amount + rec.fee
      = rec.miner_input_amount := by
  rw [audit_ok_fields node ts txid raw prev_tx firstInput rest bh hgt
    h1 h2 h3 h4 h5 h6] at hok
  injection hok with hrec
  subst hrec
  dsimp only
  have e1 : (match lastMatch? ts raw.output with | some o => o.value | none => 0)
      = ((raw.output.filter (fun o => decide (o.script_pubkey = ts))).map
          (fun o => o.value)).sum := by
    rw [lastMatch?_eq_filter_getLast?]
    exact getLast?_value_eq_sum _ hp
  have e2 : (match lastNonMatch? ts raw.output with | some o => o.value | none => 0)
      = ((raw.output.filter (fun o => !decide (o.script_pubkey = ts))).map
          (fun o => o.value)).sum := by
    rw [lastNonMatch?_eq_filter_getLast?]
    exact getLast?_value_eq_sum _ hc
  have e3 := sum_value_filter_split raw.output
    (fun o => decide (o.script_pubkey = ts))
  rw [e1, e2]
  simp only [checkedSub, if_pos hle, Option.getD_some]
  omega

/-- Witness for C1 (amended) at the reference-shaped two-output payment
"pay2": 20 BTC to the trader, 29.99 BTC change, 0.01 BTC fee, 50 BTC in. -/
theorem audit_fund_conservation_witness :
    recPay2.trader_output_amount + recPay2.miner_change_amount + recPay2.fee
      = recPay2.miner_input_amount :=
  audit_fund_conservation testNode "traderScript" "pay2" rawPay2 prevA
    ⟨⟨"prior", 0⟩⟩ [] "blockB" 123 recPay2 rfl rfl rfl (by decide) rfl rfl
    rfl (by decide) (by decide) (by decide)

/-- C2: for every transaction whose audit succeeds, the recorded fee equals
the first input's resolved provenance amount minus the sum of all output
amounts, floored at zero — hence the fee is never negative. -/
theorem audit_fee_floored (node : Node) (ts txid : String)
    (raw prev_tx : RawTransactionInfo) (firstInput : TxIn) (rest : List TxIn)
    (bh : String) (hgt : Nat) (rec : AuditRecord)
    (h1 : node.getRawTransactionInfo txid = some raw)
    (h2 : raw.input = firstInput :: rest)
    (h3 : node.getRawTransactionInfo firstInput.previous_output.txid = some prev_tx)
    (h4 : firstInput.previous_output.vout < prev_tx.output.length)
    (h5 : raw.blockhash = some bh)
    (h6 : node.getBlockHeight bh = some hgt)
    (hok : audit node ts txid = Except.ok rec) :
    ((rec.fee : ℤ)
        = max (((prev_tx.output.getD firstInput.previous_output.vout ⟨"", 0⟩).value : ℤ)
            - (((raw.output.map (fun o => o.value)).sum : Nat) : ℤ)) 0) ∧
      0 ≤ (rec.fee : ℤ) := by
  rw [audit_ok_fields node ts txid raw prev_tx firstInput rest bh hgt
    h1 h2 h3 h4 h5 h6] at hok
  injection hok with hrec
  subst hrec
  dsimp only
  constructor
  · simp only [checkedSub]
    by_cases hle : (raw.output.map (fun o => o.value)).sum
        ≤ (prev_tx.output.getD firstInput.previous_output.vout ⟨"", 0⟩).value
    · rw [if_pos hle]
      simp only [Option.getD_some]
      omega
    · rw [if_neg hle]
      simp only [Option.getD_none]
      omega
  · exact Int.natCast_nonneg _

/-- Witness for C2 at "pay2": the recorded fee 0.01 BTC is the floored
difference 50 BTC − 49.99 BTC, and is non-negative. -/
theorem audit_fee_floored_witness :
    ((recPay2.fee : ℤ)
        = max (((prevA.output.getD 0 ⟨"", 0⟩).value : ℤ)
            - (((rawPay2.output.map (fun o => o.value)).sum : Nat) : ℤ)) 0) ∧
      0 ≤ (recPay2.fee : ℤ) :=
  audit_fee_floored testNode "traderScript" "pay2" rawPay2 prevA
    ⟨⟨"prior", 0⟩⟩ [] "blockB" 123 recPay2 rfl rfl rfl (by decide) rfl rfl rfl

lemma length_filter_partition (outs : List TxOut) (p : TxOut → Bool) :
    (outs.filter p).length + (outs.filter (fun o => !p o)).length = outs.length := by
  induction outs with
  | nil => rfl
  | cons a l ih => cases hp : p a <;> simp [List.filter_cons, hp] <;> omega

/-- C5: output classification is total and by exact (formatted-)script
equality: the outputs partition into the script-matching ones (payee side)
and all others (change side), each output counted on exactly one side; the
change fields record the last non-matching output in output order ("last one
wins"); and with exactly two outputs of which exactly one matches the trader
script, the other is always classified as change, in either output order. -/
theorem output_classification_spec (ts : String) (init : AuditRecord) :
    (∀ outs : List TxOut,
      (outs.filter (fun o => decide (o.script_pubkey = ts))).length
          + (outs.filter (fun o => !decide (o.script_pubkey = ts))).length
          = outs.length ∧
      (classifyOutputs ts outs init).miner_change_address =
        (match (outs.filter (fun o => !decide (o.script_pubkey = ts))).getLast? with
         | some o => o.script_pubkey
         | none => init.miner_change_address) ∧
      (classifyOutputs ts outs init).miner_change_amount =
        (match (outs.filter (fun o => !decide (o.script_pubkey = ts))).getLast? with
         | some o => o.value
         | none => init.miner_change_amount)) ∧
    (∀ a b : TxOut, a.script_pubkey = ts → ¬ b.script_pubkey = ts →
      (classifyOutputs ts [a, b] init).trader_output_address = a.script_pubkey ∧
      (classifyOutputs ts [a, b] init).trader_output_amount = a.value ∧
      (classifyOutputs ts [a, b] init).miner_change_address = b.script_pubkey ∧
      (classifyOutputs ts [a, b] init).miner_change_amount = b.value ∧
      (classifyOutputs ts [b, a] init).trader_output_address = a.script_pubkey ∧
      (classifyOutputs ts [b, a] init).trader_output_amount = a.value ∧
      (classifyOutputs ts [b, a] init).miner_change_address = b.script_pubkey ∧
      (classifyOutputs ts [b, a] init).miner_change_amount = b.value) := by
  constructor
  · intro outs
    refine ⟨length_filter_partition outs _, ?_, ?_⟩
    · rw [classifyOutputs_eq, ← lastNonMatch?_eq_filter_getLast?]
    · rw [classifyOutputs_eq, ← lastNonMatch?_eq_filter_getLast?]
  · intro a b ha hb
    simp [classifyOutputs, classifyStep, ha, hb]

/-- Witness for C5: with trader script "traderScript", the pair of outputs
(matching, non-matching) is classified with the non-matching one as change in
both orders. -/
theorem output_classification_spec_witness :
    (classifyOutputs "traderScript" [⟨"traderScript", 5⟩, ⟨"aScript", 7⟩]
        initFixture).miner_change_address
      = (⟨"aScript", 7⟩ : TxOut).script_pubkey ∧
    (classifyOutputs "traderScript" [⟨"aScript", 7⟩, ⟨"traderScript", 5⟩]
        initFixture).trader_output_amount
      = (⟨"traderScript", 5⟩ : TxOut).value :=
  ⟨((output_classification_spec "traderScript" initFixture).2
      ⟨"traderScript", 5⟩ ⟨"aScript", 7⟩ rfl (by decide)).2.2.1,
   ((output_classification_spec "traderScript" initFixture).2
      ⟨"traderScript", 5⟩ ⟨"aScript", 7⟩ rfl (by decide)).2.2.2.2.2.1⟩

/-- C9: for a successful audit, if no output matches the trader script the
record's payee address is the empty string and the payee amount zero;
symmetrically, if every output matches, the change address is the empty
string and the change amount zero (completion without error is exhibited by
the witness). -/
theorem audit_role_defaults (node : Node) (ts txid : String)
    (raw prev_tx : RawTransactionInfo) (firstInput : TxIn) (rest : List TxIn)
    (bh : String) (hgt : Nat) (rec : AuditRecord)
    (h1 : node.getRawTransactionInfo txid = some raw)
    (h2 : raw.input = firstInput :: rest)
    (h3 : node.getRawTransactionInfo firstInput.previous_output.txid = some prev_tx)
    (h4 : firstInput.previous_output.vout < prev_tx.output.length)
    (h5 : raw.blockhash = some bh)
    (h6 : node.getBlockHeight bh = some hgt)
    (hok : audit node ts txid = Except.ok rec) :
    ((∀ o ∈ raw.output, ¬ o.script_pubkey = ts) →
        rec.trader_output_address = "" ∧ rec.trader_output_amount = 0) ∧
    ((∀ o ∈ raw.output, o.script_pubkey = ts) →
        rec.miner_change_address = "" ∧ rec.miner_change_amount = 0) := by
  rw [audit_ok_fields node ts txid raw prev_tx firstInput rest bh hgt
    h1 h2 h3 h4 h5 h6] at hok
  injection hok with hrec
  subst hrec
  dsimp only
  constructor
  · intro hnone
    have hm : lastMatch? ts raw.output = none := by
      unfold lastMatch?
      rw [List.find?_eq_none]
      intro x hx
      simp only [decide_eq_true_eq]
      exact hnone x (List.mem_reverse.mp hx)
    rw [hm]
    exact ⟨rfl, rfl⟩
  · intro hall
    have hm : lastNonMatch? ts raw.output = none := by
      unfold lastNonMatch?
      rw [List.find?_eq_none]
      intro x hx
      simp [hall x (List.mem_reverse.mp hx)]
    rw [hm]
    exact ⟨rfl, rfl⟩

/-- Witness for C9 at "payNoMatch": the audit succeeds and the record carries
the empty payee address and zero payee amount. -/
theorem audit_role_defaults_witness :
    recNoMatch.trader_output_address = "" ∧ recNoMatch.trader_output_amount = 0 :=
  (audit_role_defaults testNode "traderScript" "payNoMatch" rawPayNoMatch prevA
    ⟨⟨"prior", 0⟩⟩ [] "blockB" 123 recNoMatch rfl rfl rfl (by decide) rfl rfl
    rfl).1 (by decide)

/-- C10: for a successful audit, the recorded payee address and amount are
those of the last output (in output order) whose script matches the trader
script whenever at least one matches — "last wins" applies on the payee side
as well — and classification completes for any number of matching outputs
(exhibited by the witness with two matches). -/
theorem audit_payee_last_match (node : Node) (ts txid : String)
    (raw prev_tx : RawTransactionInfo) (firstInput : TxIn) (rest : List TxIn)
    (bh : String) (hgt : Nat) (rec : AuditRecord) (o : TxOut)
    (h1 : node.getRawTransactionInfo txid = some raw)
    (h2 : raw.input = firstInput :: rest)
    (h3 : node.getRawTransactionInfo firstInput.previous_output.txid = some prev_tx)
    (h4 : firstInput.previous_output.vout < prev_tx.output.length)
    (h5 : raw.blockhash = some bh)
    (h6 : node.getBlockHeight bh = some hgt)
    (hok : audit node ts txid = Except.ok rec)
    (hlast : (raw.output.filter (fun x => decide (x.script_pubkey = ts))).getLast?
        = some o) :
    rec.trader_output_address = o.script_pubkey ∧
    rec.trader_output_amount = o.value := by
  rw [audit_ok_fields node ts txid raw prev_tx firstInput rest bh hgt
    h1 h2 h3 h4 h5 h6] at hok
  injection hok with hrec
  subst hrec
  dsimp only
  rw [lastMatch?_eq_filter_getLast?, hlast]
  exact ⟨rfl, rfl⟩

/-- Witness for C10 at "payMulti": two outputs match the trader script and
the record carries the second (last) one's amount. -/
theorem audit_payee_last_match_witness :
    recMulti.trader_output_address
        = (⟨"traderScript", 700000000⟩ : TxOut).script_pubkey ∧
    recMulti.trader_output_amount = (⟨"traderScript", 700000000⟩ : TxOut).value :=
  audit_payee_last_match testNode "traderScript" "payMulti" rawPayMulti prevA
    ⟨⟨"prior", 0⟩⟩ [] "blockB" 123 recMulti ⟨"traderScript", 700000000⟩
    rfl rfl rfl (by decide) rfl rfl rfl (by decide)

/-- C6 counterexample: transaction "payNoInput" carries no confirming block
hash, yet its audit fails with the no-inputs error rather than the
unconfirmed-transaction error — the block-hash check does not precede the
input checks. -/
theorem audit_unconfirmed_counterexample :
    testNode.getRawTransactionInfo "payNoInput" = some rawNoInput ∧
    rawNoInput.blockhash = none ∧
    audit testNode "traderScript" "payNoInput" = Except.error AuditError.noInputs ∧
    ¬ AuditError.noInputs = AuditError.notInBlock :=
  ⟨rfl, rfl, rfl, by decide⟩

/-- C6 (amended): for every transaction with no confirming block hash whose
input list is nonempty and whose first input reference resolves in range, the
audit fails with the unconfirmed-transaction error and no record is produced;
the unconfirmed check runs after input resolution and classification rather
than before them. -/
theorem audit_unconfirmed_error (node : Node) (ts txid : String)
    (raw prev_tx : RawTransactionInfo) (firstInput : TxIn) (rest : List TxIn)
    (h1 : node.getRawTransactionInfo txid = some raw)
    (h2 : raw.input = firstInput :: rest)
    (h3 : node.getRawTransactionInfo firstInput.previous_output.txid = some prev_tx)
    (h4 : firstInput.previous_output.vout < prev_tx.output.length)
    (h5 : raw.blockhash = none) :
    audit node ts txid = Except.error AuditError.notInBlock :=
  audit_notInBlock_of_resolved node ts txid raw prev_tx firstInput rest h1 h2 h3 h4 h5

/-- Witness for C6 (amended) at "payUnconfirmed": resolvable first input, no
block hash, audit returns the unconfirmed-transaction error. -/
theorem audit_unconfirmed_error_witness :
    audit testNode "traderScript" "payUnconfirmed"
      = Except.error AuditError.notInBlock :=
  audit_unconfirmed_error testNode "traderScript" "payUnconfirmed" rawUnconfirmed
    prevA ⟨⟨"prior", 0⟩⟩ [] rfl rfl rfl (by decide) rfl

/-- C7: input provenance resolution uses only the transaction's first input:
(1) given the prior transaction fetched from that input's txid, the audit
fails with the invalid-reference error exactly when the input's output-index
is not less than the prior transaction's output count; (2) when the index is
in range, the recorded input address and amount are exactly the fields of the
in-bounds indexed output (the indexing never goes out of bounds); and (3) the
audit result is unchanged if the audited transaction's inputs after the first
are replaced arbitrarily. -/
theorem audit_first_input_resolution (node : Node) (ts txid : String)
    (raw prev_tx : RawTransactionInfo) (firstInput : TxIn) (rest : List TxIn)
    (h1 : node.getRawTransactionInfo txid = some raw)
    (h2 : raw.input = firstInput :: rest)
    (h3 : node.getRawTransactionInfo firstInput.previous_output.txid = some prev_tx) :
    (audit node ts txid = Except.error AuditError.invalidReference ↔
        prev_tx.output.length ≤ firstInput.previous_output.vout) ∧
    (∀ h4 : firstInput.previous_output.vout < prev_tx.output.length,
      ∀ rec : AuditRecord, audit node ts txid = Except.ok rec →
        rec.miner_input_address
            = (prev_tx.output.get ⟨firstInput.previous_output.vout, h4⟩).script_pubkey ∧
        rec.miner_input_amount
            = (prev_tx.output.get ⟨firstInput.previous_output.vout, h4⟩).value) ∧
    (∀ (node2 : Node) (raw2 : RawTransactionInfo) (rest2 : List TxIn),
      (∀ t, ¬ t = txid → node2.getRawTransactionInfo t
          = node.getRawTransactionInfo t) →
      node2.getBlockHeight = node.getBlockHeight →
      node2.getRawTransactionInfo txid = some raw2 →
      raw2.input = firstInput :: rest2 →
      raw2.output = raw.output →
      raw2.blockhash = raw.blockhash →
      ¬ firstInput.previous_output.txid = txid →
      audit node2 ts txid = audit node ts txid) := by
  refine ⟨⟨?_, ?_⟩, ?_, ?_⟩
  · intro he
    by_contra hlt
    have h4 : firstInput.previous_output.vout < prev_tx.output.length := by omega
    rw [audit_eq_of_resolved node ts txid raw prev_tx firstInput rest
      h1 h2 h3 h4] at he
    dsimp only at he
    rcases hbh : raw.blockhash with _ | bh
    · rw [hbh] at he
      simp at he
    · rw [hbh] at he
      dsimp only at he
      rcases hh : node.getBlockHeight bh with _ | hgt
      · rw [hh] at he
        simp at he
      · rw [hh] at he
        simp at he
  · intro hout
    unfold audit
    rw [h1]
    dsimp only
    rw [h2]
    dsimp only
    rw [h3]
    dsimp only
    rw [if_pos hout]
  · intro h4 rec hok
    have hgd : prev_tx.output.getD firstInput.previous_output.vout ⟨"", 0⟩
        = prev_tx.output.get ⟨firstInput.previous_output.vout, h4⟩ := by
      rw [List.getD_eq_getElem?_getD, List.getElem?_eq_getElem h4,
        Option.getD_some, List.get_eq_getElem]
    rw [audit_eq_of_resolved node ts txid raw prev_tx firstInput rest
      h1 h2 h3 h4] at hok
    dsimp only at hok
    rcases hbh : raw.blockhash with _ | bh
    · rw [hbh] at hok
      simp at hok
    · rw [hbh] at hok
      dsimp only at hok
      rcases hh : node.getBlockHeight bh with _ | hgt
      · rw [hh] at hok
        simp at hok
      · rw [hh] at hok
        dsimp only at hok
        injection hok with hrec
        subst hrec
        rw [classifyOutputs_eq]
        dsimp only
        rw [hgd]
        exact ⟨rfl, rfl⟩
  · intro node2 raw2 rest2 hsame hbh2 h21 h22 h23 h24 hne
    unfold audit
    rw [h1, h21]
    dsimp only
    rw [h2, h22]
    dsimp only
    rw [hsame firstInput.previous_output.txid hne, h3]
    dsimp only
    rw [h23, h24, hbh2]

/-- Witness for C7: (1) "payBadRef" references output index 5 of a one-output
prior transaction and the audit returns the invalid-reference error; (2) at
"pay2" the recorded input fields are the in-bounds indexed output's fields;
(3) replacing "pay2" by a variant with an extra second input leaves the audit
result unchanged. -/
theorem audit_first_input_resolution_witness :
    audit testNode "traderScript" "payBadRef"
        = Except.error AuditError.invalidReference ∧
    recPay2.miner_input_address
        = (prevA.output.get ⟨0, by decide⟩).script_pubkey ∧
    audit testNode2 "traderScript" "pay2" = audit testNode "traderScript" "pay2" :=
  ⟨(audit_first_input_resolution testNode "traderScript" "payBadRef" rawBadRef
      prevA ⟨⟨"prior", 5⟩⟩ [] rfl rfl rfl).1.mpr (by decide),
   ((audit_first_input_resolution testNode "traderScript" "pay2" rawPay2
      prevA ⟨⟨"prior", 0⟩⟩ [] rfl rfl rfl).2.1 (by decide) recPay2 rfl).1,
   (audit_first_input_resolution testNode "traderScript" "pay2" rawPay2
      prevA ⟨⟨"prior", 0⟩⟩ [] rfl rfl rfl).2.2 testNode2 rawPay2b
      [⟨⟨"someOtherTx", 7⟩⟩] (fun t ht => if_neg ht) rfl rfl rfl rfl rfl
      (by decide)⟩
